import Mathlib

/-!
Verification of the OpenAI adapter of the `lusat` repository
(`src/adapters/openai/index.ts`): the schema exporter `gptFunctions`,
the call parser `gptFunctionCallToWorkflow`, and the call executor
`callFunction`, shallowly embedded over an explicit JSON value type.

JavaScript values produced by `JSON.parse` and consumed by validators are
modelled by the inductive `Json`.  A JavaScript object is modelled by the
ordered list of its own enumerable properties (the order `Object.entries`
yields).  The possibly-`undefined` value of a property is an `Option Json`
(`none` = `undefined`), and structural presence of a property is recorded
separately where a claim depends on it.

The external collaborators that the adapter calls but that are not part of
this repository — the built-in `JSON.parse` and the `zod-to-json-schema`
converter — are parameters of the embedded functions, so every theorem is
stated for an arbitrary decoder/converter (with explicit hypotheses about
them where a claim needs a fact such as `JSON.parse "\x7b\x7d" = {}`).
-/

namespace Lusat

/-- A JSON/JavaScript data value (no `undefined`: absence and `undefined`
are represented by `Option` at use sites).  An object is the ordered list
of its entries, as `Object.entries` enumerates them. -/
inductive Json where
  | null : Json
  | bool (b : Bool) : Json
  | num (n : Int) : Json
  | str (s : String) : Json
  | arr (elems : List Json) : Json
  | obj (fields : List (String × Json)) : Json
deriving Repr

/-- The arity tag `_args` of a lusat action: `'unary'` or `'nullary'`. -/
inductive Arity where
  | nullary : Arity
  | unary : Arity
deriving DecidableEq, Repr

/-- The error kinds of the adapter's inbound operations, per the error
taxonomy of the specification (the source throws plain `Error`s /
propagates `SyntaxError` and validator errors; the kinds are
distinguishable by their origin). -/
inductive CallErr where
  | missingName : CallErr
  | unknownAction (name : String) : CallErr
  | malformedArguments : CallErr
  | inputValidation (msg : String) : CallErr
deriving DecidableEq, Repr

/-- A lusat `Action` as the adapter sees it (declared in `~/core/action`,
outside this adapter's file): an optional display-name override `name`, an
optional `description`, the arity tag `_args`, the input validator
`_inputParser` (consulted only when `_args = unary`), and the handler.
The handler is a state transformer over an abstract effect state `σ`
(JavaScript handlers are effectful); it receives the validated input
(`some v`) or no input (`none`). -/
structure Action (σ : Type) where
  name : Option String
  description : Option String
  _args : Arity
  _inputParser : Json → Except String Json
  handler : Option Json → σ → Json × σ

/-- A registry (`Actions`): a JavaScript object mapping names to actions,
modelled as its ordered entry list (keys unique, in insertion order). -/
abbrev Actions (σ : Type) : Type := List (String × Action σ)

/-- Property lookup `actions[name]`: the value at the first matching key. -/
def Actions.find {σ : Type} : Actions σ → String → Option (Action σ)
  | [], _ => none
  | (k, a) :: rest, n => if k = n then some a else Actions.find rest n

/-- Modelled from the spec: `Action.call` lives in `~/core/action`, which is
not among the repository files given; per the specification, calling a
unary action validates the (single) argument with the action's input
validator — a validation failure is the `InputValidationError` kind — and
only then invokes the handler with the validated (possibly coerced) value,
while calling a nullary action invokes the handler with no input.  A unary
action called with no argument fails validation (unreachable from this
adapter, which always decodes an argument for unary actions). -/
def Action.call {σ : Type} (a : Action σ) (arg : Option Json) (s : σ) :
    Except CallErr (Json × σ) :=
  match a._args with
  | .unary =>
    match arg with
    | none => .error (.inputValidation "Required")
    | some v =>
      match a._inputParser v with
      | .error e => .error (.inputValidation e)
      | .ok v' => .ok (a.handler (some v') s)
  | .nullary => .ok (a.handler none s)

/-- One element of the `ChatCompletionFunctions` list sent to OpenAI:
`{name, description?, parameters?}`.  `parameters` is a JSON-Schema
object, kept as its ordered entry list. -/
structure ChatCompletionFunction where
  name : String
  description : Option String
  parameters : List (String × Json)
deriving Repr

/-- The `ChatCompletionFunctions` descriptor list. -/
abbrev ChatCompletionFunctions : Type := List ChatCompletionFunction

/-- The exporter `gptFunctions` converts lusat `Actions` into OpenAI
`ChatCompletionFunctions`.  For each entry, in registry order:
`name` is `action.name ?? name` (the display-name override if set, else
the key — `??` is nullish coalescing, so an empty-string override is
kept); `description` is passed through; `parameters` is, for a unary
action, the converter's output with every `$schema` entry filtered out
(`Object.fromEntries(Object.entries(…).filter(([k]) => k !== '$schema'))`),
and for a nullary action the fixed empty-object schema.  The
`zod-to-json-schema` converter is the parameter `zodToJsonSchema`. -/
def gptFunctions {σ : Type}
    (zodToJsonSchema : (Json → Except String Json) → List (String × Json))
    (actions : Actions σ) : ChatCompletionFunctions :=
  actions.map fun e =>
    { name := e.2.name.getD e.1
      description := e.2.description
      parameters :=
        match e.2._args with
        | .unary =>
          (zodToJsonSchema e.2._inputParser).filter fun kv => kv.1 ≠ "$schema"
        | .nullary =>
          [("type", Json.str "object"),
           ("properties", Json.obj []),
           ("required", Json.arr [])] }

/-- The function-call record returned by the OpenAI API:
`{name?: string, arguments?: string}`. -/
structure ChatCompletionRequestMessageFunctionCall where
  name : Option String
  arguments : Option String
deriving Repr

/-- A workflow step as the object literal `\x7b action, input \x7d` builds
it. `hasInputKey` records whether `input` is an own property of the step
object (the literal always creates it); `input` is its value, `none` for
`undefined`. -/
structure WorkflowStep where
  action : String
  hasInputKey : Bool
  input : Option Json
deriving Repr

/-- A `Workflow` is an ordered list of steps. -/
abbrev Workflow : Type := List WorkflowStep

/-- Whether a JavaScript string value is falsy (`!s`): `undefined` or the
empty string.  This is the guard `!gptFunctionCall.name`. -/
def strFalsy : Option String → Bool
  | none => true
  | some s => s = ""

/-- The parser `gptFunctionCallToWorkflow` converts a GPT function call into a lusat
`Workflow`.  Mirrors the source: throw `Missing function name.` when
`!gptFunctionCall.name`; look the name up, throw `Unknown function` when
absent; `let input` stays `undefined` unless `_args === 'unary'`, in which
case `input = action._inputParser.parse(JSON.parse(arguments ?? '\x7b\x7d'))`
(a `JSON.parse` failure is the malformed-arguments kind, a validator
failure the input-validation kind); return `[\x7b action: name, input \x7d]`
— an object literal whose `input` key is always created. -/
def gptFunctionCallToWorkflow {σ : Type}
    (jsonParse : String → Except Unit Json)
    (gptFunctionCall : ChatCompletionRequestMessageFunctionCall)
    (actions : Actions σ) : Except CallErr Workflow :=
  if strFalsy gptFunctionCall.name then .error .missingName
  else
    let n := gptFunctionCall.name.getD ""
    match actions.find n with
    | none => .error (.unknownAction n)
    | some action =>
      match action._args with
      | .unary =>
        match jsonParse (gptFunctionCall.arguments.getD "\x7b\x7d") with
        | .error _ => .error .malformedArguments
        | .ok v =>
          match action._inputParser v with
          | .error e => .error (.inputValidation e)
          | .ok v' => .ok [{ action := n, hasInputKey := true, input := some v' }]
      | .nullary => .ok [{ action := n, hasInputKey := true, input := none }]

/-- The `\x7b action, result \x7d` record `callFunction` resolves to. -/
structure CallResult where
  action : String
  result : Json
deriving Repr

/-- The executor `callFunction` runs a GPT function call against lusat `Actions`.
Mirrors the source: the same two guards as the parser, then
`action._args === 'unary' ? action.call(JSON.parse(arguments ?? '\x7b\x7d'))
: action.call()`, awaiting the handler; on success returns
`\x7b action: name, result \x7d` together with the handler's final effect
state.  Validation inside `Action.call` is the spec-modelled part. -/
def callFunction {σ : Type}
    (jsonParse : String → Except Unit Json)
    (gptFunctionCall : ChatCompletionRequestMessageFunctionCall)
    (actions : Actions σ) (s : σ) : Except CallErr (CallResult × σ) :=
  if strFalsy gptFunctionCall.name then .error .missingName
  else
    let n := gptFunctionCall.name.getD ""
    match actions.find n with
    | none => .error (.unknownAction n)
    | some action =>
      match action._args with
      | .unary =>
        match jsonParse (gptFunctionCall.arguments.getD "\x7b\x7d") with
        | .error _ => .error .malformedArguments
        | .ok v =>
          match action.call (some v) s with
          | .error e => .error e
          | .ok (r, s') => .ok ({ action := n, result := r }, s')
      | .nullary =>
        match action.call none s with
        | .error e => .error e
        | .ok (r, s') => .ok ({ action := n, result := r }, s')

/-! ### Concrete fixtures

Small executable instances of the external collaborators and of a
registry, used by the witness and counterexample theorems to evaluate the
embedded adapter on concrete inputs.  The effect state is a `Nat` counter
that handlers increment, making handler invocations observable. -/

/-- A concrete stand-in for the built-in `JSON.parse`, defined on the two
argument texts the concrete examples use: the empty-object text decodes to
the empty object, everything else is a decode failure. -/
def jsonParseStub : String → Except Unit Json := fun s =>
  if s = "\x7b\x7d" then .ok (Json.obj []) else .error ()

/-- A concrete stand-in for the `zod-to-json-schema` converter: returns a
schema object that carries a `$schema` dialect entry besides ordinary
entries, to exercise the exporter's filtering. -/
def zodStub : (Json → Except String Json) → List (String × Json) := fun _ =>
  [("$schema", Json.str "http://json-schema.org/draft-07/schema#"),
   ("type", Json.str "object"),
   ("properties", Json.obj [])]

/-- A concrete input validator that accepts exactly the empty object and
returns it unchanged. -/
def acceptEmpty : Json → Except String Json := fun v =>
  match v with
  | .obj [] => .ok (Json.obj [])
  | _ => .error "invalid input"

/-- A concrete handler over a `Nat` counter state: returns `null` and
increments the counter by one on every invocation. -/
def countingHandler : Option Json → Nat → Json × Nat := fun _ c => (Json.null, c + 1)

/-- A concrete nullary action with a counting handler. -/
def pingAction : Action Nat :=
  { name := none
    description := some "a nullary action"
    _args := .nullary
    _inputParser := fun _ => .error "no validator"
    handler := countingHandler }

/-- A concrete unary action whose validator accepts the empty object. -/
def greetAction : Action Nat :=
  { name := some "greetDisplay"
    description := none
    _args := .unary
    _inputParser := acceptEmpty
    handler := countingHandler }

/-- A concrete registry with one nullary and one unary action. -/
def sampleActions : Actions Nat :=
  [("ping", pingAction), ("greet", greetAction)]

/-! ### Exporter theorems -/

/-- C4: for every registry, `gptFunctions` returns one descriptor per
registry entry, in registry order, and the i-th descriptor's name is the
i-th action's display-name override when set, else the i-th registry key;
the transformation is total by its type (it never throws). -/
theorem gptFunctions_cardinality_and_names {σ : Type}
    (zodToJsonSchema : (Json → Except String Json) → List (String × Json))
    (R : Actions σ) :
    (gptFunctions zodToJsonSchema R).length = R.length ∧
    ∀ i (hi : i < R.length) (hg : i < (gptFunctions zodToJsonSchema R).length),
      ((gptFunctions zodToJsonSchema R).get ⟨i, hg⟩).name =
        ((R.get ⟨i, hi⟩).2.name.getD (R.get ⟨i, hi⟩).1) := by
  constructor
  · simp [gptFunctions]
  · intro i hi hg
    simp [gptFunctions, List.get_eq_getElem, List.getElem_map]

/-- Witness for C4 at a concrete registry: two entries, the second
descriptor's name is the unary action's display-name override. -/
theorem gptFunctions_cardinality_and_names_witness :
    ((gptFunctions zodStub sampleActions).get ⟨1, by decide⟩).name = "greetDisplay" :=
  (gptFunctions_cardinality_and_names zodStub sampleActions).2 1 (by decide) (by decide)

/-- C6: for every unary action, the exported `parameters` object never
contains the `$schema` dialect entry, whatever object the converter
produced; every other converter-produced entry is preserved, in the
converter's order and with its value unchanged (the result is a sublist of
the converter's entry list containing exactly its non-`$schema` entries). -/
theorem gptFunctions_unary_omits_schema_field {σ : Type}
    (zodToJsonSchema : (Json → Except String Json) → List (String × Json))
    (R : Actions σ) (i : Nat) (hi : i < R.length)
    (hg : i < (gptFunctions zodToJsonSchema R).length)
    (hu : (R.get ⟨i, hi⟩).2._args = .unary) :
    (∀ kv ∈ ((gptFunctions zodToJsonSchema R).get ⟨i, hg⟩).parameters,
        kv.1 ≠ "$schema") ∧
    ((gptFunctions zodToJsonSchema R).get ⟨i, hg⟩).parameters.Sublist
        (zodToJsonSchema (R.get ⟨i, hi⟩).2._inputParser) ∧
    (∀ kv ∈ zodToJsonSchema (R.get ⟨i, hi⟩).2._inputParser, kv.1 ≠ "$schema" →
        kv ∈ ((gptFunctions zodToJsonSchema R).get ⟨i, hg⟩).parameters) := by
  have hp : ((gptFunctions zodToJsonSchema R).get ⟨i, hg⟩).parameters =
      (zodToJsonSchema (R.get ⟨i, hi⟩).2._inputParser).filter
        (fun kv => kv.1 ≠ "$schema") := by
    rw [List.get_eq_getElem] at hu
    simp [gptFunctions, List.get_eq_getElem, List.getElem_map, hu]
  refine ⟨?_, ?_, ?_⟩
  · intro kv hkv
    rw [hp] at hkv
    have := List.of_mem_filter hkv
    simpa using this
  · rw [hp]; exact List.filter_sublist _
  · intro kv hkv hne
    rw [hp]
    exact List.mem_filter.mpr ⟨hkv, by simpa using hne⟩

/-- Witness for C6 at the concrete unary registry entry (index 1) and the
concrete converter, which emits a `$schema` entry: the exported parameters
carry no `$schema` key and keep the converter's other entries. -/
theorem gptFunctions_unary_omits_schema_field_witness :
    (∀ kv ∈ ((gptFunctions zodStub sampleActions).get ⟨1, by decide⟩).parameters,
        kv.1 ≠ "$schema") ∧
    ((gptFunctions zodStub sampleActions).get ⟨1, by decide⟩).parameters.Sublist
        (zodStub (sampleActions.get ⟨1, by decide⟩).2._inputParser) ∧
    (∀ kv ∈ zodStub (sampleActions.get ⟨1, by decide⟩).2._inputParser,
        kv.1 ≠ "$schema" →
        kv ∈ ((gptFunctions zodStub sampleActions).get ⟨1, by decide⟩).parameters) :=
  gptFunctions_unary_omits_schema_field zodStub sampleActions 1 (by decide)
    (by decide) rfl

/-- C7: for every nullary action, the exported `parameters` is exactly the
canonical empty-object schema, with exactly the three entries
`type: "object"`, `properties: \x7b\x7d`, `required: []` and no others. -/
theorem gptFunctions_nullary_parameters {σ : Type}
    (zodToJsonSchema : (Json → Except String Json) → List (String × Json))
    (R : Actions σ) (i : Nat) (hi : i < R.length)
    (hg : i < (gptFunctions zodToJsonSchema R).length)
    (hn : (R.get ⟨i, hi⟩).2._args = .nullary) :
    ((gptFunctions zodToJsonSchema R).get ⟨i, hg⟩).parameters =
      [("type", Json.str "object"),
       ("properties", Json.obj []),
       ("required", Json.arr [])] := by
  rw [List.get_eq_getElem] at hn
  simp [gptFunctions, List.get_eq_getElem, List.getElem_map, hn]

/-- Witness for C7 at the concrete nullary registry entry (index 0). -/
theorem gptFunctions_nullary_parameters_witness :
    ((gptFunctions zodStub sampleActions).get ⟨0, by decide⟩).parameters =
      [("type", Json.str "object"),
       ("properties", Json.obj []),
       ("required", Json.arr [])] :=
  gptFunctions_nullary_parameters zodStub sampleActions 0 (by decide) (by decide) rfl

/-! ### Parser step-shape theorems -/

/-- Counterexample for C1: the parser's returned step object is built by
the object literal `\x7b action, input \x7d`, which always creates the
`input` key; for the concrete nullary action `ping` the resulting step has
the `input` key structurally present (with the `undefined` value), not
omitted from the object — refuting the claim that for a nullary action the
`input` field is structurally absent. -/
theorem step_input_key_present_for_nullary :
    (sampleActions.find "ping").map Action._args = some Arity.nullary ∧
    gptFunctionCallToWorkflow jsonParseStub
        { name := some "ping", arguments := none } sampleActions =
      .ok [{ action := "ping", hasInputKey := true, input := none }] ∧
    ({ action := "ping", hasInputKey := true, input := none } :
        WorkflowStep).hasInputKey = true :=
  ⟨rfl, rfl, rfl⟩

/-- C1 as amended: whenever the parser succeeds it returns a single step
whose `input` key is structurally present in all cases, and whose `input`
value is a defined value if and only if the resolved action's arity is
unary (for a nullary action the key is present with the `undefined`
value). -/
theorem parse_step_input_iff_unary {σ : Type}
    (jsonParse : String → Except Unit Json)
    (rec : ChatCompletionRequestMessageFunctionCall) (R : Actions σ)
    (w : Workflow)
    (h : gptFunctionCallToWorkflow jsonParse rec R = .ok w) :
    ∃ n a st, rec.name = some n ∧ R.find n = some a ∧ w = [st] ∧
      st.action = n ∧ st.hasInputKey = true ∧
      (st.input.isSome ↔ a._args = .unary) := by
  unfold gptFunctionCallToWorkflow at h
  by_cases hf : strFalsy rec.name
  · simp [hf] at h
  · rw [if_neg (by simpa using hf)] at h
    cases hn : rec.name with
    | none => simp [strFalsy, hn] at hf
    | some n =>
      rw [hn] at h
      simp only [Option.getD_some] at h
      cases hfind : R.find n with
      | none => rw [hfind] at h; cases h
      | some a =>
        rw [hfind] at h
        simp only [] at h
        cases ha : a._args with
        | nullary =>
          rw [ha] at h
          cases h
          exact ⟨n, a, _, rfl, hfind, rfl, rfl, rfl, by simp [ha]⟩
        | unary =>
          rw [ha] at h
          simp only [] at h
          cases hj : jsonParse (rec.arguments.getD "\x7b\x7d") with
          | error u => rw [hj] at h; cases h
          | ok v =>
            rw [hj] at h
            simp only [] at h
            cases hp : a._inputParser v with
            | error m => rw [hp] at h; cases h
            | ok w' =>
              rw [hp] at h
              cases h
              exact ⟨n, a, _, rfl, hfind, rfl, rfl, rfl, by simp [ha]⟩

/-- Witness for the amended C1 at the concrete nullary call: the step's
`input` key is present and its value is not a defined value. -/
theorem parse_step_input_iff_unary_witness :
    ∃ n a st,
      (some "ping" : Option String) = some n ∧
      sampleActions.find n = some a ∧
      ([{ action := "ping", hasInputKey := true, input := none }] :
          Workflow) = [st] ∧
      st.action = n ∧ st.hasInputKey = true ∧
      (st.input.isSome ↔ a._args = .unary) :=
  parse_step_input_iff_unary jsonParseStub
    { name := some "ping", arguments := none } sampleActions
    [{ action := "ping", hasInputKey := true, input := none }] rfl

/-- C9: a call record whose name is the empty string is treated by both
the parser and the executor exactly like a record with no name at all
(the guard is JavaScript falsiness of the name): both operations fail with
the missing-name error, never with the unknown-action error. -/
theorem empty_name_is_missing_name {σ : Type}
    (jsonParse : String → Except Unit Json) (args : Option String)
    (R : Actions σ) (s : σ) :
    gptFunctionCallToWorkflow jsonParse { name := some "", arguments := args } R =
        .error .missingName ∧
    callFunction jsonParse { name := some "", arguments := args } R s =
        .error .missingName ∧
    gptFunctionCallToWorkflow jsonParse { name := some "", arguments := args } R =
      gptFunctionCallToWorkflow jsonParse { name := none, arguments := args } R ∧
    callFunction jsonParse { name := some "", arguments := args } R s =
      callFunction jsonParse { name := none, arguments := args } R s := by
  refine ⟨?_, ?_, ?_, ?_⟩ <;>
    simp [gptFunctionCallToWorkflow, callFunction, strFalsy]

/-! ### Default-arguments and nullary-arguments theorems -/

/-- C5: for a unary action, when the call record has no `arguments` field
both the parser and the executor decode the default empty-object text
(`arguments ?? '\x7b\x7d'`); so when the decoder maps that text to the
empty object and the action's validator accepts the empty object, the
parse succeeds and the step's input is the validator's parsed result for
the empty object, and the executor invokes the handler on that same
result. -/
theorem parse_defaults_missing_arguments {σ : Type}
    (jsonParse : String → Except Unit Json) (n : String) (R : Actions σ)
    (a : Action σ) (s : σ) (v : Json)
    (hn : n ≠ "")
    (hfind : R.find n = some a)
    (hu : a._args = .unary)
    (hj : jsonParse "\x7b\x7d" = .ok (Json.obj []))
    (hp : a._inputParser (Json.obj []) = .ok v) :
    gptFunctionCallToWorkflow jsonParse { name := some n, arguments := none } R =
      .ok [{ action := n, hasInputKey := true, input := some v }] ∧
    callFunction jsonParse { name := some n, arguments := none } R s =
      .ok ({ action := n, result := (a.handler (some v) s).1 },
           (a.handler (some v) s).2) := by
  constructor
  · simp [gptFunctionCallToWorkflow, strFalsy, hn, hfind, hu, hj, hp]
  · simp [callFunction, Action.call, strFalsy, hn, hfind, hu, hj, hp]

/-- Witness for C5 at the concrete unary action `greet` (validator
accepts the empty object) and a call record with no `arguments` field. -/
theorem parse_defaults_missing_arguments_witness :
    gptFunctionCallToWorkflow jsonParseStub
        { name := some "greet", arguments := none } sampleActions =
      .ok [{ action := "greet", hasInputKey := true, input := some (Json.obj []) }] ∧
    callFunction jsonParseStub { name := some "greet", arguments := none }
        sampleActions 0 =
      .ok ({ action := "greet",
             result := (greetAction.handler (some (Json.obj [])) 0).1 },
           (greetAction.handler (some (Json.obj [])) 0).2) :=
  parse_defaults_missing_arguments jsonParseStub "greet" sampleActions
    greetAction 0 (Json.obj []) (by decide) rfl rfl rfl rfl

/-- C10: for a nullary action, both the parser and the executor ignore the
call record's `arguments` string entirely: both succeed for every decoder
(so the string is never decoded and a malformed-arguments failure cannot
arise), the step carries the `undefined` input, and the executor invokes
the handler with no input; the results coincide for any two decoders. -/
theorem nullary_ignores_arguments {σ : Type}
    (jsonParse jsonParse2 : String → Except Unit Json) (n : String)
    (args : Option String) (R : Actions σ) (a : Action σ) (s : σ)
    (hn : n ≠ "")
    (hfind : R.find n = some a)
    (hnull : a._args = .nullary) :
    gptFunctionCallToWorkflow jsonParse { name := some n, arguments := args } R =
      .ok [{ action := n, hasInputKey := true, input := none }] ∧
    callFunction jsonParse { name := some n, arguments := args } R s =
      .ok ({ action := n, result := (a.handler none s).1 },
           (a.handler none s).2) ∧
    gptFunctionCallToWorkflow jsonParse { name := some n, arguments := args } R =
      gptFunctionCallToWorkflow jsonParse2 { name := some n, arguments := args } R ∧
    callFunction jsonParse { name := some n, arguments := args } R s =
      callFunction jsonParse2 { name := some n, arguments := args } R s := by
  refine ⟨?_, ?_, ?_, ?_⟩ <;>
    simp [gptFunctionCallToWorkflow, callFunction, Action.call, strFalsy,
      hn, hfind, hnull]

/-- Witness for C10 at the concrete nullary action `ping` with an
`arguments` string that is not valid JSON (the stub decoder rejects it):
the call still succeeds and the handler runs once. -/
theorem nullary_ignores_arguments_witness :
    gptFunctionCallToWorkflow jsonParseStub
        { name := some "ping", arguments := some "not json" } sampleActions =
      .ok [{ action := "ping", hasInputKey := true, input := none }] ∧
    callFunction jsonParseStub { name := some "ping", arguments := some "not json" }
        sampleActions 0 =
      .ok ({ action := "ping", result := (pingAction.handler none 0).1 },
           (pingAction.handler none 0).2) ∧
    gptFunctionCallToWorkflow jsonParseStub
        { name := some "ping", arguments := some "not json" } sampleActions =
      gptFunctionCallToWorkflow (fun _ => .error ())
        { name := some "ping", arguments := some "not json" } sampleActions ∧
    callFunction jsonParseStub { name := some "ping", arguments := some "not json" }
        sampleActions 0 =
      callFunction (fun _ => .error ())
        { name := some "ping", arguments := some "not json" } sampleActions 0 :=
  nullary_ignores_arguments jsonParseStub (fun _ => .error ()) "ping"
    (some "not json") sampleActions pingAction 0 (by decide) rfl rfl

/-! ### Fail-fast ordering -/

/-- C3: both inbound operations check the stages in the fixed order
name presence, name resolution, JSON decode, input validation,
invocation; at each stage, as soon as its condition fails the
corresponding error is returned no matter what the later stages would do,
and when all validation stages pass the parser yields the step and the
executor invokes the handler — so the first applicable error kind is
always the one reported and a later stage never masks an earlier one. -/
theorem fail_fast_order {σ : Type}
    (jsonParse : String → Except Unit Json)
    (rec : ChatCompletionRequestMessageFunctionCall) (R : Actions σ) (s : σ) :
    (strFalsy rec.name = true →
      gptFunctionCallToWorkflow jsonParse rec R = .error .missingName ∧
      callFunction jsonParse rec R s = .error .missingName) ∧
    (∀ n, rec.name = some n → n ≠ "" → R.find n = none →
      gptFunctionCallToWorkflow jsonParse rec R = .error (.unknownAction n) ∧
      callFunction jsonParse rec R s = .error (.unknownAction n)) ∧
    (∀ n a, rec.name = some n → n ≠ "" → R.find n = some a →
      a._args = .unary →
      jsonParse (rec.arguments.getD "\x7b\x7d") = .error () →
      gptFunctionCallToWorkflow jsonParse rec R = .error .malformedArguments ∧
      callFunction jsonParse rec R s = .error .malformedArguments) ∧
    (∀ n a v m, rec.name = some n → n ≠ "" → R.find n = some a →
      a._args = .unary →
      jsonParse (rec.arguments.getD "\x7b\x7d") = .ok v →
      a._inputParser v = .error m →
      gptFunctionCallToWorkflow jsonParse rec R = .error (.inputValidation m) ∧
      callFunction jsonParse rec R s = .error (.inputValidation m)) ∧
    (∀ n a v v2, rec.name = some n → n ≠ "" → R.find n = some a →
      a._args = .unary →
      jsonParse (rec.arguments.getD "\x7b\x7d") = .ok v →
      a._inputParser v = .ok v2 →
      gptFunctionCallToWorkflow jsonParse rec R =
        .ok [{ action := n, hasInputKey := true, input := some v2 }] ∧
      callFunction jsonParse rec R s =
        .ok ({ action := n, result := (a.handler (some v2) s).1 },
             (a.handler (some v2) s).2)) := by
  refine ⟨?_, ?_, ?_, ?_, ?_⟩
  · intro hf
    exact ⟨by simp [gptFunctionCallToWorkflow, hf],
           by simp [callFunction, hf]⟩
  · intro n hn hne hfind
    constructor <;>
      simp [gptFunctionCallToWorkflow, callFunction, strFalsy, hn, hne, hfind]
  · intro n a hn hne hfind hu hj
    constructor <;>
      simp [gptFunctionCallToWorkflow, callFunction, Action.call, strFalsy,
        hn, hne, hfind, hu, hj]
  · intro n a v m hn hne hfind hu hj hp
    constructor <;>
      simp [gptFunctionCallToWorkflow, callFunction, Action.call, strFalsy,
        hn, hne, hfind, hu, hj, hp]
  · intro n a v v2 hn hne hfind hu hj hp
    constructor <;>
      simp [gptFunctionCallToWorkflow, callFunction, Action.call, strFalsy,
        hn, hne, hfind, hu, hj, hp]

/-- Witness for C3: name resolution fails before argument decoding — for
an unknown name and an `arguments` string every decode of which would
fail, the reported error is the unknown-action kind, on both operations. -/
theorem fail_fast_order_witness :
    gptFunctionCallToWorkflow jsonParseStub
        { name := some "nope", arguments := some "not json" } sampleActions =
      .error (.unknownAction "nope") ∧
    callFunction jsonParseStub
        { name := some "nope", arguments := some "not json" } sampleActions 0 =
      .error (.unknownAction "nope") :=
  (fail_fast_order jsonParseStub
      { name := some "nope", arguments := some "not json" }
      sampleActions 0).2.1 "nope" rfl (by decide) rfl

/-! ### Parser/executor equivalence -/

/-- C2: the executor performs the same resolution and argument-validation
stages as the parser and fails under exactly the same conditions with the
same error kind — for every error kind, the executor fails with it exactly
when the parser fails with it; in particular, for a unary action a decoded
argument rejected by the validator makes the executor fail with the
input-validation kind, so validation happens before the handler could
contribute a result (the handler is total in this model; a failing
executor call returns no effect state). -/
theorem callFunction_fails_like_parse {σ : Type}
    (jsonParse : String → Except Unit Json)
    (rec : ChatCompletionRequestMessageFunctionCall) (R : Actions σ) (s : σ) :
    (∀ e, callFunction jsonParse rec R s = .error e ↔
      gptFunctionCallToWorkflow jsonParse rec R = .error e) ∧
    (∀ n a v m, rec.name = some n → n ≠ "" → R.find n = some a →
      a._args = .unary →
      jsonParse (rec.arguments.getD "\x7b\x7d") = .ok v →
      a._inputParser v = .error m →
      callFunction jsonParse rec R s = .error (.inputValidation m)) := by
  constructor
  · intro e
    by_cases hf : strFalsy rec.name
    · simp [gptFunctionCallToWorkflow, callFunction, hf]
    · cases hn : rec.name with
      | none => simp [strFalsy, hn] at hf
      | some n =>
        have hne : ¬ n = "" := by simpa [strFalsy, hn] using hf
        cases hfind : R.find n with
        | none =>
          simp [gptFunctionCallToWorkflow, callFunction, strFalsy, hn, hne, hfind]
        | some a =>
          cases ha : a._args with
          | nullary =>
            simp [gptFunctionCallToWorkflow, callFunction, Action.call,
              strFalsy, hn, hne, hfind, ha]
          | unary =>
            cases hj : jsonParse (rec.arguments.getD "\x7b\x7d") with
            | error u =>
              simp [gptFunctionCallToWorkflow, callFunction, Action.call,
                strFalsy, hn, hne, hfind, ha, hj]
            | ok v =>
              cases hp : a._inputParser v with
              | error m =>
                simp [gptFunctionCallToWorkflow, callFunction, Action.call,
                  strFalsy, hn, hne, hfind, ha, hj, hp]
              | ok v2 =>
                simp [gptFunctionCallToWorkflow, callFunction, Action.call,
                  strFalsy, hn, hne, hfind, ha, hj, hp]
  · intro n a v m hn hne hfind hu hj hp
    simp [callFunction, Action.call, strFalsy, hn, hne, hfind, hu, hj, hp]

/-- Witness for C2 at a concrete rejected argument: the decoder yields a
string value, the `greet` validator rejects it, and the executor fails
with the input-validation kind. -/
theorem callFunction_fails_like_parse_witness :
    callFunction (fun _ => .ok (Json.str "bad"))
        { name := some "greet", arguments := some "\"bad\"" }
        sampleActions 0 =
      .error (.inputValidation "invalid input") :=
  (callFunction_fails_like_parse (fun _ => .ok (Json.str "bad"))
      { name := some "greet", arguments := some "\"bad\"" }
      sampleActions 0).2 "greet" greetAction (Json.str "bad") "invalid input"
    rfl (by decide) rfl rfl rfl rfl

/-! ### Effect isolation -/

/-- Two registry entries agree on everything the parser can observe —
key, display name, description, arity and input validator — and may
differ in their handlers (and even in their handlers' effect-state
types). -/
def actionShapeEq {σ₁ σ₂ : Type} (e₁ : String × Action σ₁)
    (e₂ : String × Action σ₂) : Prop :=
  e₁.1 = e₂.1 ∧ e₁.2.name = e₂.2.name ∧ e₁.2.description = e₂.2.description ∧
  e₁.2._args = e₂.2._args ∧ e₁.2._inputParser = e₂.2._inputParser

/-- Two registries agree entrywise on everything but the handlers. -/
def SameShape {σ₁ σ₂ : Type} (R₁ : Actions σ₁) (R₂ : Actions σ₂) : Prop :=
  List.Forall₂ actionShapeEq R₁ R₂

/-- Lookup in two registries of the same shape fails together or yields
actions of equal arity and equal input validator. -/
theorem find_of_sameShape {σ₁ σ₂ : Type} {R₁ : Actions σ₁} {R₂ : Actions σ₂}
    (h : SameShape R₁ R₂) (n : String) :
    (R₁.find n = none ∧ R₂.find n = none) ∨
    ∃ a₁ a₂, R₁.find n = some a₁ ∧ R₂.find n = some a₂ ∧
      a₁._args = a₂._args ∧ a₁._inputParser = a₂._inputParser := by
  induction h with
  | nil => exact Or.inl ⟨rfl, rfl⟩
  | @cons e₁ e₂ l₁ l₂ h₁ hrest ih =>
    obtain ⟨k₁, act₁⟩ := e₁
    obtain ⟨k₂, act₂⟩ := e₂
    obtain ⟨hk, hname, hdesc, hargs, hparser⟩ := h₁
    simp only at hk hname hdesc hargs hparser
    subst hk
    by_cases hkn : k₁ = n
    · exact Or.inr ⟨act₁, act₂, by simp [Actions.find, hkn],
        by simp [Actions.find, hkn], hargs, hparser⟩
    · simpa [Actions.find, hkn] using ih

/-- C8: the parser never invokes any handler and has no side effects —
its result is unchanged under any replacement of all the handlers (even
across effect-state types), since it observes only the shape of the
registry; and on every successful executor call, the final effect state
and the result are produced by exactly one application of the resolved
action's handler to the initial state, so only the executor invokes a
handler, exactly once per successful call. -/
theorem parse_ignores_handlers_execute_invokes_once {σ₁ σ₂ : Type}
    (jsonParse : String → Except Unit Json)
    (rec : ChatCompletionRequestMessageFunctionCall)
    (R₁ : Actions σ₁) (R₂ : Actions σ₂) (h : SameShape R₁ R₂) :
    gptFunctionCallToWorkflow jsonParse rec R₁ =
      gptFunctionCallToWorkflow jsonParse rec R₂ ∧
    ∀ (s : σ₂) (res : CallResult) (s2 : σ₂),
      callFunction jsonParse rec R₂ s = .ok (res, s2) →
      ∃ a arg, R₂.find res.action = some a ∧
        (res.result, s2) = a.handler arg s := by
  constructor
  · by_cases hf : strFalsy rec.name
    · simp [gptFunctionCallToWorkflow, hf]
    · cases hn : rec.name with
      | none => simp [strFalsy, hn] at hf
      | some n =>
        have hne : ¬ n = "" := by simpa [strFalsy, hn] using hf
        rcases find_of_sameShape h n with ⟨h1, h2⟩ | ⟨a₁, a₂, h1, h2, hargs, hparser⟩
        · simp [gptFunctionCallToWorkflow, strFalsy, hn, hne, h1, h2]
        · cases ha : a₁._args with
          | nullary =>
            simp [gptFunctionCallToWorkflow, strFalsy, hn, hne, h1, h2,
              ha, hargs ▸ ha]
          | unary =>
            cases hj : jsonParse (rec.arguments.getD "\x7b\x7d") with
            | error u =>
              simp [gptFunctionCallToWorkflow, strFalsy, hn, hne, h1, h2,
                ha, hargs ▸ ha, hj]
            | ok v =>
              cases hp : a₁._inputParser v with
              | error m =>
                simp [gptFunctionCallToWorkflow, strFalsy, hn, hne, h1, h2,
                  ha, hargs ▸ ha, hj, hp, hparser ▸ hp]
              | ok v2 =>
                simp [gptFunctionCallToWorkflow, strFalsy, hn, hne, h1, h2,
                  ha, hargs ▸ ha, hj, hp, hparser ▸ hp]
  · intro s res s2 hcall
    unfold callFunction at hcall
    by_cases hf : strFalsy rec.name
    · simp [hf] at hcall
    · rw [if_neg (by simpa using hf)] at hcall
      cases hn : rec.name with
      | none => simp [strFalsy, hn] at hf
      | some n =>
        rw [hn] at hcall
        simp only [Option.getD_some] at hcall
        cases hfind : R₂.find n with
        | none => rw [hfind] at hcall; cases hcall
        | some a =>
          rw [hfind] at hcall
          simp only [] at hcall
          cases ha : a._args with
          | nullary =>
            rw [ha] at hcall
            simp only [Action.call, ha] at hcall
            cases hcall
            exact ⟨a, none, hfind, rfl⟩
          | unary =>
            rw [ha] at hcall
            simp only [] at hcall
            cases hj : jsonParse (rec.arguments.getD "\x7b\x7d") with
            | error u => rw [hj] at hcall; cases hcall
            | ok v =>
              rw [hj] at hcall
              simp only [Action.call, ha] at hcall
              cases hp : a._inputParser v with
              | error m => rw [hp] at hcall; simp at hcall
              | ok v2 =>
                rw [hp] at hcall
                simp only [] at hcall
                cases hcall
                exact ⟨a, some v2, hfind, rfl⟩

/-- A registry with the same shape as `sampleActions` but different
handlers: they return `true` and add five to the counter. -/
def sampleActionsAlt : Actions Nat :=
  [("ping", { pingAction with handler := fun _ c => (Json.bool true, c + 5) }),
   ("greet", { greetAction with handler := fun _ c => (Json.bool true, c + 5) })]

/-- The two sample registries agree on everything but the handlers. -/
theorem sampleActions_sameShape : SameShape sampleActions sampleActionsAlt :=
  List.Forall₂.cons ⟨rfl, rfl, rfl, rfl, rfl⟩
    (List.Forall₂.cons ⟨rfl, rfl, rfl, rfl, rfl⟩ List.Forall₂.nil)

/-- Witness for C8 at a concrete nullary call with counting handlers: the
parse result is identical across the handler replacement, and the
successful executor call's final counter is the resolved handler applied
once to the initial counter. -/
theorem parse_ignores_handlers_execute_invokes_once_witness :
    gptFunctionCallToWorkflow jsonParseStub
        { name := some "ping", arguments := none } sampleActions =
      gptFunctionCallToWorkflow jsonParseStub
        { name := some "ping", arguments := none } sampleActionsAlt ∧
    (∃ a arg, sampleActionsAlt.find "ping" = some a ∧
      ((Json.bool true, 5) : Json × Nat) = a.handler arg 0) :=
  ⟨(parse_ignores_handlers_execute_invokes_once jsonParseStub
      { name := some "ping", arguments := none }
      sampleActions sampleActionsAlt sampleActions_sameShape).1,
   (parse_ignores_handlers_execute_invokes_once jsonParseStub
      { name := some "ping", arguments := none }
      sampleActions sampleActionsAlt sampleActions_sameShape).2 0
     { action := "ping", result := Json.bool true } 5 rfl⟩

end Lusat
